import Mathlib

/-!
Verification of the Time-It-Right game service core.

Shallow embedding of the game-session lifecycle, the game use cases, the
leaderboard aggregation query, the websocket connection registry and the
push-channel protocol handler, translated from the Python source under
`app/`.  Timestamps are modelled as microseconds (the resolution of
`datetime`) as integers; Python float arithmetic on `total_seconds()` and
deviation ratios is modelled exactly over `ℚ`; Python `int(...)` applied to
a non-integral number truncates toward zero and Python `round(...)` rounds
half to even, both modelled explicitly below.
-/

namespace TimeItRight

/-- Python `int(x)` on a real: truncation toward zero. -/
def pyTrunc (q : ℚ) : ℤ := if 0 ≤ q then ⌊q⌋ else ⌈q⌉

/-- Python `round(x)` to an integer: round half to even (banker's rounding). -/
def pyRoundInt (q : ℚ) : ℤ :=
  if q - (⌊q⌋ : ℚ) < 1/2 then ⌊q⌋
  else if 1/2 < q - (⌊q⌋ : ℚ) then ⌊q⌋ + 1
  else if ⌊q⌋ % 2 = 0 then ⌊q⌋ else ⌊q⌋ + 1

/-- Python `round(x, 2)`: round to two decimal places, half to even. -/
def pyRound2 (q : ℚ) : ℚ := (pyRoundInt (q * 100) : ℚ) / 100

/-- The game-relevant fields of `app.core.config.Settings`
(defaults `target_time_ms = 10000`, `session_expire_minutes = 30`). -/
structure Settings where
  target_time_ms : ℤ
  session_expire_minutes : ℤ
deriving DecidableEq, Repr

/-- The default configuration values. -/
def defaultSettings : Settings := ⟨10000, 30⟩

/-- `app.domain.entities.game_session.SessionStatus`. -/
inductive SessionStatus where
  | active
  | completed
  | expired
deriving DecidableEq, Repr

/-- `app.domain.entities.game_session.GameSessionEntity`.
`start_time` and `stop_time` are UTC timestamps in microseconds. -/
structure GameSessionEntity where
  id : Option ℤ
  user_id : ℤ
  start_time : ℤ
  stop_time : Option ℤ := none
  duration_ms : Option ℤ := none
  deviation_ms : Option ℤ := none
  status : SessionStatus := .active
  created_at : Option ℤ := none
deriving DecidableEq, Repr

/-- The error taxonomy of the use-case layer (spec §7); the source raises
`ValueError` with a distinguishing message for each of these. -/
inductive GameError where
  | notFoundError
  | authorizationError
  | invalidStateError
  | expiredError
  | conflictError
deriving DecidableEq, Repr

namespace GameSessionEntity

/-- `GameSessionEntity.complete_session(stop_time)`.
`duration_ms = int((stop_time - start_time).total_seconds() * 1000)`:
the elapsed time in microseconds divided by 10^6 (seconds), times 1000,
truncated toward zero by `int`. -/
def complete_session (st : Settings) (s : GameSessionEntity) (stop_time : ℤ) :
    Except GameError GameSessionEntity :=
  if s.status ≠ .active then .error .invalidStateError
  else
    let duration : ℤ := pyTrunc (((stop_time - s.start_time : ℤ) : ℚ) / 1000000 * 1000)
    .ok { s with
          stop_time := some stop_time
          duration_ms := some duration
          deviation_ms := some |duration - st.target_time_ms|
          status := .completed }

/-- `GameSessionEntity.expire_session()`: mutates only when active. -/
def expire_session (s : GameSessionEntity) : GameSessionEntity :=
  if s.status = .active then { s with status := .expired } else s

/-- `GameSessionEntity.is_expired()`, with `datetime.utcnow()` passed in as
`now` (microseconds); `timedelta(minutes=m)` is `m * 60 * 10^6` microseconds. -/
def is_expired (st : Settings) (s : GameSessionEntity) (now : ℤ) : Bool :=
  if s.status ≠ .active then false
  else decide (now > s.start_time + st.session_expire_minutes * 60 * 1000000)

/-- `GameSessionEntity.get_accuracy_score()`. -/
def get_accuracy_score (st : Settings) (s : GameSessionEntity) : ℚ :=
  match s.deviation_ms with
  | none => 0
  | some dev => pyRound2 (max 0 (100 * (1 - (dev : ℚ) / (st.target_time_ms : ℚ))))

/-- `GameSessionEntity.is_active` property. -/
def is_active (s : GameSessionEntity) : Bool := s.status = .active

/-- `GameSessionEntity.is_completed` property. -/
def is_completed (s : GameSessionEntity) : Bool := s.status = .completed

end GameSessionEntity

/-- The repository's durable state: the stored sessions plus the id the
store will assign to the next created row
(`app.infrastructure.repositories.game_session_repository`). -/
structure Store where
  sessions : List GameSessionEntity
  nextId : ℤ
deriving DecidableEq, Repr

namespace Store

/-- `GameSessionRepository.get_by_id`. -/
def get_by_id (store : Store) (session_id : ℤ) : Option GameSessionEntity :=
  store.sessions.find? (fun s => s.id = some session_id)

/-- `GameSessionRepository.get_active_by_user`. -/
def get_active_by_user (store : Store) (user_id : ℤ) : Option GameSessionEntity :=
  store.sessions.find? (fun s => s.user_id = user_id ∧ s.status = .active)

/-- `GameSessionRepository.update`: overwrite the row with the entity's id. -/
def update (store : Store) (s : GameSessionEntity) : Store :=
  { store with sessions := store.sessions.map (fun t => if t.id = s.id then s else t) }

/-- `GameSessionRepository.create`: insert a new row, the store assigning
the id. -/
def create (store : Store) (s : GameSessionEntity) : GameSessionEntity × Store :=
  let s' := { s with id := some store.nextId }
  (s', { sessions := store.sessions ++ [s'], nextId := store.nextId + 1 })

end Store

/-- The fresh entity `StartGameUseCase.execute` builds before persisting. -/
def newSession (user_id now : ℤ) : GameSessionEntity :=
  { id := none, user_id := user_id, start_time := now, status := .active,
    created_at := some now }

/-- Creation of the fresh session by the store inside `StartGameUseCase`. -/
def startFresh (store : Store) (user_id now : ℤ) : GameSessionEntity × Store :=
  store.create (newSession user_id now)

/-- `StartGameUseCase.execute(user_id)`, with `datetime.utcnow()` passed in
as `now`.  Returns the result together with the store as left by the call
(errors leave any persisted expiry in place). -/
def startGame (st : Settings) (store : Store) (user_id : ℤ) (now : ℤ) :
    Except GameError GameSessionEntity × Store :=
  match store.get_active_by_user user_id with
  | some existing =>
    if existing.is_expired st now then
      (.ok (startFresh (store.update existing.expire_session) user_id now).1,
       (startFresh (store.update existing.expire_session) user_id now).2)
    else
      (.error .conflictError, store)
  | none => (.ok (startFresh store user_id now).1, (startFresh store user_id now).2)

/-- `StopGameUseCase.execute(session_id, user_id)`, with `datetime.utcnow()`
passed in as `now`. -/
def stopGame (st : Settings) (store : Store) (session_id user_id : ℤ) (now : ℤ) :
    Except GameError GameSessionEntity × Store :=
  match store.get_by_id session_id with
  | none => (.error .notFoundError, store)
  | some s =>
    if s.user_id ≠ user_id then (.error .authorizationError, store)
    else if ¬ s.is_active then (.error .invalidStateError, store)
    else if s.is_expired st now then
      (.error .expiredError, store.update s.expire_session)
    else
      match s.complete_session st now with
      | .error e => (.error e, store)
      | .ok s' => (.ok s', store.update s')

/-- A row of the `users` table, as far as the leaderboard query reads it. -/
structure UserRec where
  id : ℤ
  username : String
deriving DecidableEq, Repr

/-- A row of the grouped aggregate in `GameSessionRepository.get_leaderboard`
before the Python-side enumeration: one user's id, username, exact average
deviation, best (minimum) deviation and completed-game count. -/
structure LBRow where
  user_id : ℤ
  username : String
  avg_deviation : ℚ
  best_deviation : ℤ
  total_games : ℕ
deriving DecidableEq, Repr

/-- One entry of the list returned by `get_leaderboard`. -/
structure LBEntry where
  user_id : ℤ
  username : String
  avg_deviation_ms : ℚ
  best_deviation_ms : ℤ
  total_games : ℕ
  rank : ℕ
deriving DecidableEq, Repr

/-- The deviations of a user's rows passing the query's `WHERE` clause:
`status == completed` and `deviation_ms IS NOT NULL`. -/
def completedDeviations (sessions : List GameSessionEntity) (uid : ℤ) : List ℤ :=
  sessions.filterMap (fun s =>
    if s.user_id = uid ∧ s.status = .completed then s.deviation_ms else none)

/-- Minimum of a nonempty deviation list (SQL `min`); 0 on the empty list,
which the query never produces. -/
def minDev : List ℤ → ℤ
  | [] => 0
  | d :: ds => ds.foldl min d

/-- The grouped aggregate row for one user, `none` when the user has no
qualifying session (the inner join produces no group for them). -/
def userRow (sessions : List GameSessionEntity) (u : UserRec) : Option LBRow :=
  let devs := completedDeviations sessions u.id
  if devs.isEmpty then none
  else some
    { user_id := u.id
      username := u.username
      avg_deviation := (devs.sum : ℚ) / (devs.length : ℚ)
      best_deviation := minDev devs
      total_games := devs.length }

/-- The ordering of the `ORDER BY avg(deviation_ms)` clause. -/
def lbRowLe (a b : LBRow) : Prop := a.avg_deviation ≤ b.avg_deviation

instance : DecidableRel lbRowLe := fun a b =>
  inferInstanceAs (Decidable (a.avg_deviation ≤ b.avg_deviation))

instance : IsTotal LBRow lbRowLe := ⟨fun a b => le_total a.avg_deviation b.avg_deviation⟩

instance : IsTrans LBRow lbRowLe := ⟨fun _ _ _ h₁ h₂ => le_trans h₁ h₂⟩

/-- `ORDER BY avg(deviation_ms)` ascending, modelled as an insertion sort on
the grouped rows. -/
def sortRows (rows : List LBRow) : List LBRow :=
  rows.insertionSort lbRowLe

/-- The Python list comprehension over the fetched rows:
`rank = idx + 1`, `avg_deviation_ms = round(avg, 2)`. -/
def rankFrom (idx : ℕ) : List LBRow → List LBEntry
  | [] => []
  | r :: rs =>
    { user_id := r.user_id
      username := r.username
      avg_deviation_ms := pyRound2 r.avg_deviation
      best_deviation_ms := r.best_deviation
      total_games := r.total_games
      rank := idx + 1 } :: rankFrom (idx + 1) rs

/-- `GameSessionRepository.get_leaderboard(limit)`: join users to their
completed sessions, group and aggregate per user, order ascending by
average deviation, truncate to `limit`, then enumerate assigning ranks. -/
def get_leaderboard (users : List UserRec) (sessions : List GameSessionEntity)
    (limit : ℕ) : List LBEntry :=
  rankFrom 0 (((sortRows (users.filterMap (userRow sessions)))).take limit)

/-- A stored completed session with the given deviation, for concrete
leaderboard inputs. -/
def demoCompleted (uid dev : ℤ) : GameSessionEntity :=
  { id := some uid, user_id := uid, start_time := 0, stop_time := some 20000,
    duration_ms := some 0, deviation_ms := some dev, status := .completed }

/-- Two users for the concrete leaderboard check. -/
def demoUsers : List UserRec := [⟨1, "alice"⟩, ⟨2, "bob"⟩]

/-- Sessions giving user 1 average deviation 50 and user 2 average 500. -/
def demoSessions : List GameSessionEntity :=
  [demoCompleted 1 50, demoCompleted 2 500]

/-- A websocket connection handle, abstracted to a number. -/
abbrev Conn := ℕ

/-- The metadata `WebSocketManager.connection_info[websocket]`; the handler
for `subscribe_user_updates` may later add a `subscribed_user_id` key. -/
structure ConnInfo where
  type : String
  user_id : Option ℤ
  subscribed_user_id : Option ℤ := none
deriving DecidableEq, Repr

/-- Python-dict lookup on an insertion-ordered association list. -/
def assocLookup {α β : Type} [DecidableEq α] : List (α × β) → α → Option β
  | [], _ => none
  | (k, v) :: rest, key => if k = key then some v else assocLookup rest key

/-- Python-dict assignment: replace in place when the key is present,
append otherwise (dicts preserve insertion order). -/
def assocSet {α β : Type} [DecidableEq α] : List (α × β) → α → β → List (α × β)
  | [], key, val => [(key, val)]
  | (k, v) :: rest, key, val =>
    if k = key then (k, val) :: rest else (k, v) :: assocSet rest key val

/-- Python `del d[key]`: drop the entry with the key. -/
def assocDel {α β : Type} [DecidableEq α] : List (α × β) → α → List (α × β)
  | [], _ => []
  | (k, v) :: rest, key => if k = key then rest else (k, v) :: assocDel rest key

/-- `app.infrastructure.services.websocket_manager.WebSocketManager`:
connections grouped by type, plus per-connection metadata.  Python sets of
connections are modelled as duplicate-free lists. -/
structure WSManager where
  connections : List (String × List Conn)
  connection_info : List (Conn × ConnInfo)
deriving DecidableEq, Repr

namespace WSManager

/-- The manager constructed by `WebSocketManager.__init__`. -/
def empty : WSManager := ⟨[], []⟩

/-- `WebSocketManager.connect(websocket, connection_type, user_id)` (the
registry mutation; the transport `accept()` is external). -/
def connect (m : WSManager) (ws : Conn) (connection_type : String)
    (user_id : Option ℤ) : WSManager :=
  let group := (assocLookup m.connections connection_type).getD []
  let group' := if ws ∈ group then group else group ++ [ws]
  { connections := assocSet m.connections connection_type group'
    connection_info := assocSet m.connection_info ws ⟨connection_type, user_id, none⟩ }

/-- `WebSocketManager.disconnect(websocket)`. -/
def disconnect (m : WSManager) (ws : Conn) : WSManager :=
  match assocLookup m.connection_info ws with
  | none => m
  | some info =>
    let connections₁ :=
      match assocLookup m.connections info.type with
      | none => m.connections
      | some group =>
        let group' := group.erase ws
        if group'.isEmpty then assocDel m.connections info.type
        else assocSet m.connections info.type group'
    { connections := connections₁
      connection_info := assocDel m.connection_info ws }

/-- `WebSocketManager.get_connection_count(connection_type)` with a type. -/
def count (m : WSManager) (connection_type : String) : ℕ :=
  ((assocLookup m.connections connection_type).getD []).length

/-- The delivery loop of `send_to_connection_type`: over the snapshot, a
send is attempted per connection in its own try/except; the result is the
list of connections delivered to and the `disconnected` set collected for
cleanup.  `sendOk c = false` models `send_text` raising for `c`. -/
def runDeliver (sendOk : Conn → Bool) : List Conn → List Conn × List Conn
  | [] => ([], [])
  | c :: cs =>
    let (delivered, failed) := runDeliver sendOk cs
    if sendOk c then (c :: delivered, failed) else (delivered, c :: failed)

/-- `WebSocketManager.send_to_connection_type(connection_type, message)`:
returns the connections the message reached and the manager after the
post-pass cleanup of failed connections. -/
def send_to_connection_type (m : WSManager) (connection_type : String)
    (sendOk : Conn → Bool) : List Conn × WSManager :=
  match assocLookup m.connections connection_type with
  | none => ([], m)
  | some group =>
    let (delivered, failed) := runDeliver sendOk group
    (delivered, failed.foldl disconnect m)

end WSManager

/-- A registry with one topic holding connections 1 and 2, both tracked in
the metadata map, used as concrete broadcast input. -/
def demoManager : WSManager :=
  ⟨[("leaderboard", [1, 2])],
   [(1, ⟨"leaderboard", none, none⟩), (2, ⟨"leaderboard", none, none⟩)]⟩

/-- A send outcome where connection 1 fails and connection 2 succeeds. -/
def demoSendOk : Conn → Bool := fun c => decide (c = 2)

/-- The `data.user_id` field of an inbound `subscribe_user_updates` message:
absent (`none`), present but null (`some none`), or an integer
(`some (some n)`).  `message.get("data", \x7b\x7d).get("user_id")` maps the
first two to Python `None`. -/
abbrev DataUserId := Option (Option ℤ)

/-- An inbound client message as far as the dispatcher in
`handle_client_message` reads it: its `type` and its `data.user_id`. -/
structure InMsg where
  type : String
  dataUserId : DataUserId := none
deriving DecidableEq, Repr

/-- The outbound replies `handle_client_message` can produce. -/
inductive OutMsg where
  | pong
  | connectionStatus
  | subscriptionConfirmed (user_id : ℤ)
  | errorUnknownType (t : String)
deriving DecidableEq, Repr

/-- Python truthiness of `target_user_id` (`None` and `0` are falsy). -/
def truthyUserId : Option ℤ → Bool
  | none => false
  | some n => n ≠ 0

/-- `app.presentation.api.websockets.handle_client_message`: returns the
replies sent on the connection and the (possibly updated) registry. -/
def handle_client_message (m : WSManager) (ws : Conn) (msg : InMsg) :
    List OutMsg × WSManager :=
  if msg.type = "ping" then ([.pong], m)
  else if msg.type = "request_leaderboard" then ([.connectionStatus], m)
  else if msg.type = "subscribe_user_updates" then
    let target : Option ℤ := match msg.dataUserId with
      | none => none
      | some none => none
      | some (some n) => some n
    if truthyUserId target then
      match target with
      | some n =>
        let m' : WSManager :=
          match assocLookup m.connection_info ws with
          | none => m
          | some info =>
            { m with connection_info :=
                assocSet m.connection_info ws { info with subscribed_user_id := some n } }
        ([.subscriptionConfirmed n], m')
      | none => ([], m)
    else ([], m)
  else ([.errorUnknownType msg.type], m)

/-- The single-quote character. -/
def sqChar : Char := Char.ofNat 39

/-- The double-quote character. -/
def dqChar : Char := Char.ofNat 34

/-- The opening-brace character. -/
def lbraceChar : Char := Char.ofNat 123

/-- The closing-brace character. -/
def rbraceChar : Char := Char.ofNat 125

/-- The backslash character. -/
def bsChar : Char := Char.ofNat 92

/-- The single-quote as a one-character string. -/
def sqStr : String := String.mk [sqChar]

/-- The double-quote as a one-character string. -/
def dqStr : String := String.mk [dqChar]

/-- Python `repr` of a str (for strings of printable characters without
backslashes): delimited by single quotes, except that a string containing a
single quote and no double quote is delimited by double quotes (in which
case the single quote is not escaped). -/
def pyStrRepr (s : String) : String :=
  if s.toList.contains sqChar ∧ ¬ s.toList.contains dqChar then dqStr ++ s ++ dqStr
  else sqStr ++ (String.mk (s.toList.flatMap
    (fun c => if c = sqChar then [bsChar, sqChar] else [c]))) ++ sqStr

/-- Python `repr` of a dict key (the keys here are plain identifiers). -/
def keyRepr (k : String) : String := sqStr ++ k ++ sqStr

/-- Python `repr` of a float with one decimal digit, the shape of the
two-decimal-rounded aggregates appearing in the concrete frames below. -/
def float1Repr (ip : ℤ) (tenths : ℕ) : String :=
  toString ip ++ "." ++ toString tenths

/-- The `.replace("'", '"')` applied by `send_connection_status` to the
dict repr: every single-quote character becomes a double quote. -/
def quoteReplace (l : List Char) : List Char :=
  l.map (fun c => if c = sqChar then dqChar else c)

/-- Whitespace per the JSON grammar. -/
def jsonWs (c : Char) : Bool := c = ' ' ∨ c = '\n' ∨ c = '\t' ∨ c = '\r'

/-- Drop leading JSON whitespace. -/
def skipWs : List Char → List Char
  | [] => []
  | c :: cs => if jsonWs c then skipWs cs else c :: cs

/-- Consume the remainder of a JSON string literal (opening quote already
consumed); returns the input after the closing quote. -/
def parseJString : List Char → Option (List Char)
  | [] => none
  | c :: cs =>
    if c = dqChar then some cs
    else if c = bsChar then
      match cs with
      | [] => none
      | _ :: cs' => parseJString cs'
    else if c.val < 32 then none
    else parseJString cs

/-- Drop leading decimal digits. -/
def dropDigits : List Char → List Char
  | [] => []
  | c :: cs => if c.isDigit then dropDigits cs else c :: cs

/-- Consume one or more decimal digits. -/
def parseDigits1 : List Char → Option (List Char)
  | [] => none
  | c :: cs => if c.isDigit then some (dropDigits cs) else none

/-- Consume an optional JSON fraction part. -/
def parseFrac : List Char → Option (List Char)
  | [] => some []
  | c :: cs => if c = '.' then parseDigits1 cs else some (c :: cs)

/-- Consume an optional JSON exponent part. -/
def parseExp : List Char → Option (List Char)
  | [] => some []
  | c :: cs =>
    if c = 'e' ∨ c = 'E' then
      match cs with
      | [] => none
      | d :: ds => if d = '+' ∨ d = '-' then parseDigits1 ds else parseDigits1 (d :: ds)
    else some (c :: cs)

/-- Consume a JSON number. -/
def parseNumber (l : List Char) : Option (List Char) := do
  let l₁ ← match l with
    | [] => none
    | c :: cs => if c = '-' then some cs else some (c :: cs)
  let l₂ ← parseDigits1 l₁
  let l₃ ← parseFrac l₂
  parseExp l₃

/-- Consume an expected literal tail (for `true` / `false` / `null`). -/
def parseLit : List Char → List Char → Option (List Char)
  | [], l => some l
  | _ :: _, [] => none
  | e :: es, c :: cs => if c = e then parseLit es cs else none

/-- A pending context of the JSON validator: inside an array or an object. -/
inductive JFrame where
  | arr
  | obj
deriving DecidableEq, Repr

/-- The validator's mode: expecting a value, expecting an object key, or
having just finished a value (so a separator or closer comes next). -/
inductive JMode where
  | value
  | key
  | after
deriving DecidableEq, Repr

/-- One-pass JSON validity checker: recursive descent with an explicit
context stack, structurally recursive on its fuel so that closed runs
evaluate by kernel reduction.  Every recursive step consumes at least one
character, so fuel `length + 2` suffices. -/
def jsonRun : ℕ → JMode → List JFrame → List Char → Bool
  | 0, _, _, _ => false
  | fuel + 1, .value, stack, l =>
    match skipWs l with
    | [] => false
    | c :: cs =>
      if c = dqChar then
        match parseJString cs with
        | some rest => jsonRun fuel .after stack rest
        | none => false
      else if c = lbraceChar then
        match skipWs cs with
        | [] => false
        | d :: ds =>
          if d = rbraceChar then jsonRun fuel .after stack ds
          else jsonRun fuel .key (.obj :: stack) (d :: ds)
      else if c = '[' then
        match skipWs cs with
        | [] => false
        | d :: ds =>
          if d = ']' then jsonRun fuel .after stack ds
          else jsonRun fuel .value (.arr :: stack) (d :: ds)
      else if c = 't' then
        match parseLit ('r' :: 'u' :: 'e' :: []) cs with
        | some rest => jsonRun fuel .after stack rest
        | none => false
      else if c = 'f' then
        match parseLit ('a' :: 'l' :: 's' :: 'e' :: []) cs with
        | some rest => jsonRun fuel .after stack rest
        | none => false
      else if c = 'n' then
        match parseLit ('u' :: 'l' :: 'l' :: []) cs with
        | some rest => jsonRun fuel .after stack rest
        | none => false
      else
        match parseNumber (c :: cs) with
        | some rest => jsonRun fuel .after stack rest
        | none => false
  | fuel + 1, .key, stack, l =>
    match skipWs l with
    | [] => false
    | c :: cs =>
      if c = dqChar then
        match parseJString cs with
        | some rest =>
          match skipWs rest with
          | d :: ds => if d = ':' then jsonRun fuel .value stack ds else false
          | [] => false
        | none => false
      else false
  | fuel + 1, .after, stack, l =>
    match stack with
    | [] => (skipWs l).isEmpty
    | .obj :: rest =>
      match skipWs l with
      | [] => false
      | c :: cs =>
        if c = ',' then jsonRun fuel .key (.obj :: rest) cs
        else if c = rbraceChar then jsonRun fuel .after rest cs
        else false
    | .arr :: rest =>
      match skipWs l with
      | [] => false
      | c :: cs =>
        if c = ',' then jsonRun fuel .value (.arr :: rest) cs
        else if c = ']' then jsonRun fuel .after rest cs
        else false

/-- Decides whether a character sequence is a single valid JSON text. -/
def jsonValidChars (l : List Char) : Bool :=
  jsonRun (l.length + 2) .value [] l

/-- One leaderboard entry as it reaches the wire in
`send_connection_status`: the `model_dump()` of `LeaderboardEntry`, its two
float fields carried as (integer part, tenths digit) of the rounded values
in the frames considered here. -/
structure WireEntry where
  rank : ℕ
  user_id : ℤ
  username : String
  avgInt : ℤ
  avgTenths : ℕ
  best : ℤ
  total : ℕ
  accInt : ℤ
  accTenths : ℕ

/-- Python `repr` of one leaderboard entry dict as `model_dump()` yields it
(field order is the schema's declaration order). -/
def entryRepr (e : WireEntry) : String :=
  String.mk [lbraceChar] ++
  keyRepr "rank" ++ ": " ++ toString e.rank ++ ", " ++
  keyRepr "user_id" ++ ": " ++ toString e.user_id ++ ", " ++
  keyRepr "username" ++ ": " ++ pyStrRepr e.username ++ ", " ++
  keyRepr "avg_deviation_ms" ++ ": " ++ float1Repr e.avgInt e.avgTenths ++ ", " ++
  keyRepr "best_deviation_ms" ++ ": " ++ toString e.best ++ ", " ++
  keyRepr "total_games" ++ ": " ++ toString e.total ++ ", " ++
  keyRepr "accuracy_percentage" ++ ": " ++ float1Repr e.accInt e.accTenths ++
  String.mk [rbraceChar]

/-- Comma-separated entry reprs of the leaderboard list. -/
def entriesRepr : List WireEntry → String
  | [] => ""
  | [e] => entryRepr e
  | e :: es => entryRepr e ++ ", " ++ entriesRepr es

/-- Python `str(...)` of the `welcome_message` dict built by
`LeaderboardNotificationService.send_connection_status`: the keys `type`,
`data` (holding `message`, `current_leaderboard` with `leaderboard` and
`total_entries`, and `active_connections`) and `timestamp`, in insertion
order, rendered by Python dict/str repr. -/
def welcomeRepr (entries : List WireEntry) (activeConnections : ℕ) (ts : String) :
    String :=
  String.mk [lbraceChar] ++
  keyRepr "type" ++ ": " ++ pyStrRepr "connection_established" ++ ", " ++
  keyRepr "data" ++ ": " ++ String.mk [lbraceChar] ++
  keyRepr "message" ++ ": " ++ pyStrRepr "Connected to leaderboard updates" ++ ", " ++
  keyRepr "current_leaderboard" ++ ": " ++ String.mk [lbraceChar] ++
  keyRepr "leaderboard" ++ ": [" ++ entriesRepr entries ++ "], " ++
  keyRepr "total_entries" ++ ": " ++ toString entries.length ++
  String.mk [rbraceChar] ++ ", " ++
  keyRepr "active_connections" ++ ": " ++ toString activeConnections ++
  String.mk [rbraceChar] ++ ", " ++
  keyRepr "timestamp" ++ ": " ++ pyStrRepr ts ++
  String.mk [rbraceChar]

/-- The text frame `send_connection_status` actually sends:
`str(welcome_message).replace("'", '"')`. -/
def connectionStatusFrame (entries : List WireEntry) (activeConnections : ℕ)
    (ts : String) : List Char :=
  quoteReplace (welcomeRepr entries activeConnections ts).toList

/-- A leaderboard entry whose username is plain alphanumeric text. -/
def plainEntry : WireEntry :=
  ⟨1, 7, "alice", 50, 0, 50, 1, 99, 5⟩

/-- A leaderboard entry whose username contains a single-quote character
(for example the surname written O-quote-Brien). -/
def quotedEntry : WireEntry :=
  ⟨1, 7, "O" ++ sqStr ++ "Brien", 50, 0, 50, 1, 99, 5⟩

/-- The duration `complete_session` stores, in milliseconds: elapsed
microseconds over 10^6 (seconds), times 1000, truncated by `int(...)`. -/
def durMs (s : GameSessionEntity) (t : ℤ) : ℤ :=
  pyTrunc (((t - s.start_time : ℤ) : ℚ) / 1000000 * 1000)

/-- The completed entity `complete_session` produces from an active session. -/
def completedSession (st : Settings) (s : GameSessionEntity) (t : ℤ) : GameSessionEntity :=
  { s with
    stop_time := some t
    duration_ms := some (durMs s t)
    deviation_ms := some |durMs s t - st.target_time_ms|
    status := .completed }

/-- The session used as the concrete input of the duration counterexample. -/
def cexSession : GameSessionEntity :=
  { id := some 1, user_id := 1, start_time := 0, status := .active }

/-- One invocation of an entity operation: the mutating `complete_session`
and `expire_session`, and the pure predicate `is_expired`. -/
inductive SessionOp where
  | completeAt (t : ℤ)
  | expireOp
  | isExpiredAt (now : ℤ)
deriving DecidableEq, Repr

/-- The effect of one entity operation on the session: `complete_session`
raises (leaving the entity unmutated) when not active, `expire_session`
only mutates when active, `is_expired` never mutates. -/
def applyOp (st : Settings) (s : GameSessionEntity) : SessionOp → GameSessionEntity
  | .completeAt t =>
    match s.complete_session st t with
    | .ok s' => s'
    | .error _ => s
  | .expireOp => s.expire_session
  | .isExpiredAt _ => s

/-- The session after a sequence of entity operations. -/
def runOps (st : Settings) (s : GameSessionEntity) (ops : List SessionOp) :
    GameSessionEntity :=
  ops.foldl (applyOp st) s

/-- Reachability in the status machine: a status reaches itself, and
`active` reaches everything (`Active → Completed`, `Active → Expired`). -/
def statusReach (a b : SessionStatus) : Prop := a = b ∨ a = .active

/-- The field/status invariant of the spec's data model: the completion
fields are all absent while `Active` and all present once `Completed`. -/
def sessionInv (s : GameSessionEntity) : Prop :=
  (s.status = .active →
    s.stop_time = none ∧ s.duration_ms = none ∧ s.deviation_ms = none) ∧
  (s.status = .completed →
    s.stop_time.isSome ∧ s.duration_ms.isSome ∧ s.deviation_ms.isSome)

lemma complete_session_of_active (st : Settings) (s : GameSessionEntity) (t : ℤ)
    (h : s.status = .active) :
    s.complete_session st t = .ok (completedSession st s t) := by
  simp [GameSessionEntity.complete_session, completedSession, durMs, h]

lemma pyTrunc_eq_floor {q : ℚ} (h : 0 ≤ q) : pyTrunc q = ⌊q⌋ := if_pos h

lemma ratDiv_thousand (q : ℚ) : q / 1000000 * 1000 = q / 1000 := by
  ring

lemma floor_le_pyRoundInt (q : ℚ) : ⌊q⌋ ≤ pyRoundInt q := by
  unfold pyRoundInt
  split_ifs <;> omega

lemma pyRoundInt_le_floor_add_one (q : ℚ) : pyRoundInt q ≤ ⌊q⌋ + 1 := by
  unfold pyRoundInt
  split_ifs <;> omega

lemma floor_eq_of {z : ℤ} {q : ℚ} (h1 : (z : ℚ) ≤ q) (h2 : q < z + 1) : ⌊q⌋ = z :=
  Int.floor_eq_iff.mpr ⟨h1, by exact_mod_cast h2⟩

lemma pyRoundInt_intCast (n : ℤ) : pyRoundInt (n : ℚ) = n := by
  unfold pyRoundInt
  have h : ⌊(n : ℚ)⌋ = n := Int.floor_intCast n
  rw [h]
  norm_num

lemma pyRoundInt_nonneg {q : ℚ} (h : 0 ≤ q) : 0 ≤ pyRoundInt q := by
  have := Int.floor_nonneg.mpr h
  have := floor_le_pyRoundInt q
  omega

lemma pyRound2_zero : pyRound2 0 = 0 := by
  unfold pyRound2
  have h0 : pyRoundInt (0 : ℚ) = 0 := by
    have := pyRoundInt_intCast 0
    simpa using this
  norm_num [h0]

lemma pyRound2_hundred : pyRound2 100 = 100 := by
  unfold pyRound2
  have h : (100 : ℚ) * 100 = ((10000 : ℤ) : ℚ) := by norm_num
  rw [h, pyRoundInt_intCast]
  norm_num

lemma pyRound2_nonneg {q : ℚ} (h : 0 ≤ q) : 0 ≤ pyRound2 q := by
  unfold pyRound2
  have h100 : (0 : ℚ) ≤ q * 100 := by linarith
  have := pyRoundInt_nonneg h100
  positivity

lemma pyRoundInt_mono {q r : ℚ} (h : q ≤ r) : pyRoundInt q ≤ pyRoundInt r := by
  have hf : ⌊q⌋ ≤ ⌊r⌋ := Int.floor_le_floor h
  rcases eq_or_lt_of_le hf with heq | hlt
  · have hcast : ((⌊q⌋ : ℚ)) = (⌊r⌋ : ℚ) := by exact_mod_cast heq
    unfold pyRoundInt
    split_ifs <;> first
      | omega
      | (exfalso; linarith)
  · have h1 := pyRoundInt_le_floor_add_one q
    have h2 := floor_le_pyRoundInt r
    omega

lemma pyRound2_mono {q r : ℚ} (h : q ≤ r) : pyRound2 q ≤ pyRound2 r := by
  unfold pyRound2
  have h100 : q * 100 ≤ r * 100 := by linarith
  have := pyRoundInt_mono h100
  have hc : ((pyRoundInt (q * 100) : ℚ)) ≤ ((pyRoundInt (r * 100) : ℚ)) := by
    exact_mod_cast this
  linarith

/-- C1 counterexample.  The claim states `duration_ms` is the elapsed time
in milliseconds rounded; the code applies `int(...)`, which truncates.  At
`start_time = 0` and `stop_time = 900` microseconds the elapsed time is
0.9 ms: the code stores `duration_ms = 0` while rounding gives 1. -/
theorem complete_session_rounding_cex :
    cexSession.complete_session defaultSettings 900 =
      .ok (completedSession defaultSettings cexSession 900) ∧
    durMs cexSession 900 = 0 ∧
    pyRoundInt (((900 - cexSession.start_time : ℤ) : ℚ) / 1000) = 1 ∧
    durMs cexSession 900 ≠ pyRoundInt (((900 - cexSession.start_time : ℤ) : ℚ) / 1000) := by
  have e1 : ((900 - cexSession.start_time : ℤ) : ℚ) / 1000000 * 1000 = 9/10 := by
    norm_num [cexSession]
  have e2 : ((900 - cexSession.start_time : ℤ) : ℚ) / 1000 = 9/10 := by
    norm_num [cexSession]
  have hfl : ⌊(9/10 : ℚ)⌋ = 0 := floor_eq_of (by norm_num) (by norm_num)
  have hdur : durMs cexSession 900 = 0 := by
    rw [durMs, e1, pyTrunc_eq_floor (by norm_num), hfl]
  have hround : pyRoundInt (((900 - cexSession.start_time : ℤ) : ℚ) / 1000) = 1 := by
    rw [e2]
    simp only [pyRoundInt, hfl]
    norm_num
  exact ⟨complete_session_of_active _ _ _ rfl, hdur, hround, by rw [hdur, hround]; decide⟩

/-- C1 (amended).  For every session in status Active, `complete(stop_time)`
sets `duration_ms` to `(stop_time - start_time) * 1000` (elapsed time in
whole milliseconds) truncated toward zero, sets `deviation_ms` to
`abs(duration_ms - target_ms)`, and sets `status` to Completed. -/
theorem complete_session_spec (st : Settings) (s : GameSessionEntity) (t : ℤ)
    (h : s.status = .active) :
    s.complete_session st t = .ok (completedSession st s t) ∧
    (completedSession st s t).duration_ms =
      some (pyTrunc (((t - s.start_time : ℤ) : ℚ) / 1000)) ∧
    (completedSession st s t).deviation_ms =
      some |pyTrunc (((t - s.start_time : ℤ) : ℚ) / 1000) - st.target_time_ms| ∧
    (completedSession st s t).stop_time = some t ∧
    (completedSession st s t).status = .completed := by
  refine ⟨complete_session_of_active st s t h, ?_, ?_, rfl, rfl⟩
  · simp [completedSession, durMs, ratDiv_thousand]
  · simp [completedSession, durMs, ratDiv_thousand]

/-- Witness for C1 at a concrete active session: stopping 10000.5 ms after
start stores a duration of 10000 ms and a deviation of 0 ms. -/
theorem complete_session_spec_witness :
    cexSession.complete_session defaultSettings 10000500 =
      .ok (completedSession defaultSettings cexSession 10000500) ∧
    (completedSession defaultSettings cexSession 10000500).duration_ms = some 10000 ∧
    (completedSession defaultSettings cexSession 10000500).deviation_ms = some 0 := by
  have h := complete_session_spec defaultSettings cexSession 10000500 rfl
  have e1 : ((10000500 - cexSession.start_time : ℤ) : ℚ) / 1000000 * 1000 = 20001/2 := by
    norm_num [cexSession]
  have hfl : ⌊(20001/2 : ℚ)⌋ = 10000 := floor_eq_of (by norm_num) (by norm_num)
  have hdur : durMs cexSession 10000500 = 10000 := by
    rw [durMs, e1, pyTrunc_eq_floor (by norm_num), hfl]
  refine ⟨h.1, ?_, ?_⟩
  · show some (durMs cexSession 10000500) = some 10000
    rw [hdur]
  · show some |durMs cexSession 10000500 - defaultSettings.target_time_ms| = some 0
    rw [hdur]
    decide

/-- C8.  `accuracy_score()` equals `max(0, 100 * (1 - deviation_ms /
target_ms))` rounded to 2 decimals, is 0 when `deviation_ms` is unset, is
100.0 at deviation 0, is 0.0 at deviation equal to the target, is clamped
to 0.0 for any deviation above the target, and is never negative. -/
theorem accuracy_score_spec (st : Settings) (s : GameSessionEntity)
    (hpos : 0 < st.target_time_ms) :
    (s.deviation_ms = none → s.get_accuracy_score st = 0) ∧
    (∀ d : ℤ, s.deviation_ms = some d →
      s.get_accuracy_score st =
        pyRound2 (max 0 (100 * (1 - (d : ℚ) / (st.target_time_ms : ℚ))))) ∧
    (s.deviation_ms = some 0 → s.get_accuracy_score st = 100) ∧
    (s.deviation_ms = some st.target_time_ms → s.get_accuracy_score st = 0) ∧
    (∀ d : ℤ, s.deviation_ms = some d → st.target_time_ms < d →
      s.get_accuracy_score st = 0) ∧
    0 ≤ s.get_accuracy_score st := by
  have hgen : ∀ d : ℤ, s.deviation_ms = some d →
      s.get_accuracy_score st =
        pyRound2 (max 0 (100 * (1 - (d : ℚ) / (st.target_time_ms : ℚ)))) := by
    intro d hd
    simp [GameSessionEntity.get_accuracy_score, hd]
  refine ⟨?_, hgen, ?_, ?_, ?_, ?_⟩
  · intro h
    simp [GameSessionEntity.get_accuracy_score, h]
  · intro h
    rw [hgen 0 h]
    have h0 : (((0 : ℤ) : ℚ)) / (st.target_time_ms : ℚ) = 0 := by
      push_cast
      exact zero_div _
    rw [h0, show (100 : ℚ) * (1 - 0) = 100 by norm_num,
        max_eq_right (by norm_num : (0 : ℚ) ≤ 100)]
    exact pyRound2_hundred
  · intro h
    rw [hgen st.target_time_ms h]
    have hne : ((st.target_time_ms : ℚ)) ≠ 0 := by
      exact_mod_cast ne_of_gt hpos
    rw [div_self hne, show (100 : ℚ) * (1 - 1) = 0 by norm_num, max_self]
    exact pyRound2_zero
  · intro d hd hlt
    rw [hgen d hd]
    have ht : (0 : ℚ) < (st.target_time_ms : ℚ) := by exact_mod_cast hpos
    have hdq : ((st.target_time_ms : ℚ)) < (d : ℚ) := by exact_mod_cast hlt
    have h1 : (1 : ℚ) < (d : ℚ) / (st.target_time_ms : ℚ) := (one_lt_div ht).mpr hdq
    have hx : 100 * (1 - (d : ℚ) / (st.target_time_ms : ℚ)) ≤ 0 := by nlinarith
    rw [max_eq_left hx]
    exact pyRound2_zero
  · cases hd : s.deviation_ms with
    | none => simp [GameSessionEntity.get_accuracy_score, hd]
    | some d =>
      rw [hgen d hd]
      exact pyRound2_nonneg (le_max_left _ _)

/-- Witness for C8: at the default target, a session with deviation 0
scores 100 and a session with deviation 20000 (above the target) scores 0. -/
theorem accuracy_score_spec_witness :
    ({ cexSession with deviation_ms := some 0 } : GameSessionEntity).get_accuracy_score
      defaultSettings = 100 ∧
    ({ cexSession with deviation_ms := some 20000 } : GameSessionEntity).get_accuracy_score
      defaultSettings = 0 := by
  constructor
  · exact (accuracy_score_spec defaultSettings _ (by decide)).2.2.1 rfl
  · exact (accuracy_score_spec defaultSettings _ (by decide)).2.2.2.2.1 20000 rfl (by decide)

/-- C10.  An inbound `subscribe_user_updates` message whose `data.user_id`
is absent, null, or 0 produces no reply at all and leaves the registry
(hence the connection's metadata) unchanged; the handler returns normally,
so the message loop continues. -/
theorem subscribe_falsy_no_reply (m : WSManager) (ws : Conn) (d : DataUserId)
    (h : d = none ∨ d = some none ∨ d = some (some 0)) :
    handle_client_message m ws { type := "subscribe_user_updates", dataUserId := d } =
      ([], m) := by
  rcases h with h | h | h <;> subst h <;>
    simp [handle_client_message, truthyUserId]

/-- Witness for C10 at a concrete registry and all three falsy field values. -/
theorem subscribe_falsy_no_reply_witness :
    handle_client_message WSManager.empty 0
      { type := "subscribe_user_updates", dataUserId := none } = ([], WSManager.empty) ∧
    handle_client_message WSManager.empty 0
      { type := "subscribe_user_updates", dataUserId := some none } = ([], WSManager.empty) ∧
    handle_client_message WSManager.empty 0
      { type := "subscribe_user_updates", dataUserId := some (some 0) } = ([], WSManager.empty) :=
  ⟨subscribe_falsy_no_reply WSManager.empty 0 none (Or.inl rfl),
   subscribe_falsy_no_reply WSManager.empty 0 (some none) (Or.inr (Or.inl rfl)),
   subscribe_falsy_no_reply WSManager.empty 0 (some (some 0)) (Or.inr (Or.inr rfl))⟩

lemma statusReach_trans {a b c : SessionStatus} (h₁ : statusReach a b)
    (h₂ : statusReach b c) : statusReach a c := by
  rcases h₁ with h₁ | h₁
  · subst h₁; exact h₂
  · exact Or.inr h₁

lemma expire_session_of_terminal {s : GameSessionEntity} (h : s.status ≠ .active) :
    s.expire_session = s := by
  unfold GameSessionEntity.expire_session
  rw [if_neg h]

lemma applyOp_statusReach (st : Settings) (s : GameSessionEntity) (op : SessionOp) :
    statusReach s.status (applyOp st s op).status := by
  cases op with
  | completeAt t =>
    by_cases h : s.status = .active
    · rw [applyOp, complete_session_of_active st s t h]
      exact Or.inr h
    · rw [applyOp]
      unfold GameSessionEntity.complete_session
      rw [if_pos h]
      exact Or.inl rfl
  | expireOp =>
    by_cases h : s.status = .active
    · rw [applyOp]
      unfold GameSessionEntity.expire_session
      rw [if_pos h]
      exact Or.inr h
    · rw [applyOp, expire_session_of_terminal h]
      exact Or.inl rfl
  | isExpiredAt now => exact Or.inl rfl

lemma applyOp_inv (st : Settings) (s : GameSessionEntity) (op : SessionOp)
    (h : sessionInv s) : sessionInv (applyOp st s op) := by
  cases op with
  | completeAt t =>
    by_cases ha : s.status = .active
    · rw [applyOp, complete_session_of_active st s t ha]
      exact ⟨fun hc => by simp [completedSession] at hc,
             fun _ => by simp [completedSession]⟩
    · rw [applyOp]
      unfold GameSessionEntity.complete_session
      rw [if_pos ha]
      exact h
  | expireOp =>
    by_cases ha : s.status = .active
    · rw [applyOp]
      unfold GameSessionEntity.expire_session
      rw [if_pos ha]
      exact ⟨fun hc => by simp_all, fun hc => by simp_all⟩
    · rw [applyOp, expire_session_of_terminal ha]
      exact h
  | isExpiredAt now => exact h

lemma runOps_inv_reach (st : Settings) (ops : List SessionOp) :
    ∀ s : GameSessionEntity, sessionInv s →
      sessionInv (runOps st s ops) ∧ statusReach s.status (runOps st s ops).status := by
  induction ops with
  | nil => exact fun s h => ⟨h, Or.inl rfl⟩
  | cons op rest ih =>
    intro s h
    have hstep := applyOp_statusReach st s op
    have hrest := ih (applyOp st s op) (applyOp_inv st s op h)
    exact ⟨hrest.1, statusReach_trans hstep hrest.2⟩

/-- C4.  Over any sequence of entity operations, status transitions are
monotone (a status reaches only itself, or anything from `Active`, so the
only transitions are `Active → Completed` and `Active → Expired`);
`expire_session` on a terminal session is a no-op mutating nothing; and
the completion fields are all absent while `Active` and all present and
non-null once `Completed`. -/
theorem session_lifecycle_spec (st : Settings) (s : GameSessionEntity)
    (ops : List SessionOp) (hInv : sessionInv s) :
    sessionInv (runOps st s ops) ∧
    statusReach s.status (runOps st s ops).status ∧
    (∀ s' : GameSessionEntity, s'.status ≠ .active → s'.expire_session = s') := by
  have h := runOps_inv_reach st ops s hInv
  exact ⟨h.1, h.2, fun s' h' => expire_session_of_terminal h'⟩

/-- Witness for C4: running complete-then-expire-then-complete on a fresh
session keeps the invariant and lands in `Completed`, reachable from
`Active`. -/
theorem session_lifecycle_spec_witness :
    sessionInv (runOps defaultSettings (newSession 1 0)
      [SessionOp.completeAt 500, SessionOp.expireOp, SessionOp.completeAt 900]) ∧
    statusReach (newSession 1 0).status
      (runOps defaultSettings (newSession 1 0)
        [SessionOp.completeAt 500, SessionOp.expireOp, SessionOp.completeAt 900]).status := by
  have h := session_lifecycle_spec defaultSettings (newSession 1 0)
    [SessionOp.completeAt 500, SessionOp.expireOp, SessionOp.completeAt 900]
    ⟨fun _ => ⟨rfl, rfl, rfl⟩, fun hc => by simp [newSession] at hc⟩
  exact ⟨h.1, h.2.1⟩

/-- C2.  `StopGame` fails with `NotFoundError` on a missing id, with
`AuthorizationError` on someone else's session, with `InvalidStateError` on
a non-active session; on an active but lapsed session it persists the
`Expired` transition and fails with `ExpiredError` without completing the
session; otherwise it completes the session at the current time, persists
it and returns it. -/
theorem stopGame_spec (st : Settings) (store : Store) (sid uid now : ℤ) :
    (store.get_by_id sid = none →
      stopGame st store sid uid now = (.error .notFoundError, store)) ∧
    (∀ s, store.get_by_id sid = some s → s.user_id ≠ uid →
      stopGame st store sid uid now = (.error .authorizationError, store)) ∧
    (∀ s, store.get_by_id sid = some s → s.user_id = uid → s.status ≠ .active →
      stopGame st store sid uid now = (.error .invalidStateError, store)) ∧
    (∀ s, store.get_by_id sid = some s → s.user_id = uid → s.status = .active →
      s.is_expired st now = true →
      stopGame st store sid uid now =
        (.error .expiredError, store.update s.expire_session) ∧
      s.expire_session.status = .expired ∧
      s.expire_session.stop_time = s.stop_time ∧
      s.expire_session.duration_ms = s.duration_ms ∧
      s.expire_session.deviation_ms = s.deviation_ms) ∧
    (∀ s, store.get_by_id sid = some s → s.user_id = uid → s.status = .active →
      s.is_expired st now = false →
      stopGame st store sid uid now =
        (.ok (completedSession st s now), store.update (completedSession st s now))) := by
  refine ⟨?_, ?_, ?_, ?_, ?_⟩
  · intro h
    simp only [stopGame, h]
  · intro s h hu
    simp only [stopGame, h]
    rw [if_pos hu]
  · intro s h hu hs
    simp only [stopGame, h]
    rw [if_neg (fun hne => hne hu),
        if_pos (by simp [GameSessionEntity.is_active, hs])]
  · intro s h hu hsa hexp
    have hact : s.is_active = true := by simp [GameSessionEntity.is_active, hsa]
    refine ⟨?_, ?_, ?_, ?_, ?_⟩
    · simp only [stopGame, h]
      rw [if_neg (fun hne => hne hu), if_neg (by simp [hact]), if_pos (by simp [hexp])]
    all_goals rw [GameSessionEntity.expire_session, if_pos hsa]
  · intro s h hu hsa hexp
    have hact : s.is_active = true := by simp [GameSessionEntity.is_active, hsa]
    simp only [stopGame, h]
    rw [if_neg (fun hne => hne hu), if_neg (by simp [hact]), if_neg (by simp [hexp]),
        complete_session_of_active st s now hsa]

/-- The completed variant of the counterexample session, for witnesses. -/
theorem stopGame_spec_witness :
    stopGame defaultSettings ⟨[], 1⟩ 1 1 0 = (.error .notFoundError, (⟨[], 1⟩ : Store)) ∧
    stopGame defaultSettings ⟨[cexSession], 2⟩ 1 2 0 =
      (.error .authorizationError, (⟨[cexSession], 2⟩ : Store)) ∧
    stopGame defaultSettings ⟨[{ cexSession with status := .completed }], 2⟩ 1 1 0 =
      (.error .invalidStateError,
       (⟨[{ cexSession with status := .completed }], 2⟩ : Store)) ∧
    stopGame defaultSettings ⟨[cexSession], 2⟩ 1 1 1800000001 =
      (.error .expiredError,
       Store.update ⟨[cexSession], 2⟩ cexSession.expire_session) ∧
    stopGame defaultSettings ⟨[cexSession], 2⟩ 1 1 500 =
      (.ok (completedSession defaultSettings cexSession 500),
       Store.update ⟨[cexSession], 2⟩ (completedSession defaultSettings cexSession 500)) := by
  refine ⟨?_, ?_, ?_, ?_, ?_⟩
  · exact (stopGame_spec defaultSettings ⟨[], 1⟩ 1 1 0).1 (by decide)
  · exact (stopGame_spec defaultSettings ⟨[cexSession], 2⟩ 1 2 0).2.1 cexSession
      (by decide) (by decide)
  · exact (stopGame_spec defaultSettings _ 1 1 0).2.2.1
      { cexSession with status := .completed } (by decide) (by decide) (by decide)
  · exact ((stopGame_spec defaultSettings ⟨[cexSession], 2⟩ 1 1 1800000001).2.2.2.1 cexSession
      (by decide) (by decide) (by decide) (by decide)).1
  · exact (stopGame_spec defaultSettings ⟨[cexSession], 2⟩ 1 1 500).2.2.2.2 cexSession
      (by decide) (by decide) (by decide) (by decide)

/-- C3.  `StartGame` with a live (non-lapsed) active session fails with
`ConflictError` and creates nothing; with a lapsed active session it
persists that session's `Expired` transition and then creates, persists and
returns a fresh `Active` session starting now; with no active session it
creates, persists and returns the fresh session directly. -/
theorem startGame_spec (st : Settings) (store : Store) (uid now : ℤ) :
    (store.get_active_by_user uid = none →
      startGame st store uid now =
        (.ok (startFresh store uid now).1, (startFresh store uid now).2) ∧
      (startFresh store uid now).1.status = .active ∧
      (startFresh store uid now).1.start_time = now ∧
      (startFresh store uid now).1.user_id = uid ∧
      (startFresh store uid now).1 ∈ (startFresh store uid now).2.sessions) ∧
    (∀ s, store.get_active_by_user uid = some s → s.is_expired st now = false →
      startGame st store uid now = (.error .conflictError, store)) ∧
    (∀ s, store.get_active_by_user uid = some s → s.is_expired st now = true →
      startGame st store uid now =
        (.ok (startFresh (store.update s.expire_session) uid now).1,
         (startFresh (store.update s.expire_session) uid now).2) ∧
      s.expire_session.status = .expired ∧
      s.expire_session ∈ (startFresh (store.update s.expire_session) uid now).2.sessions ∧
      (startFresh (store.update s.expire_session) uid now).1.status = .active ∧
      (startFresh (store.update s.expire_session) uid now).1.start_time = now ∧
      (startFresh (store.update s.expire_session) uid now).1 ∈
        (startFresh (store.update s.expire_session) uid now).2.sessions) := by
  refine ⟨?_, ?_, ?_⟩
  · intro h
    refine ⟨by simp only [startGame, h], rfl, rfl, rfl, ?_⟩
    simp [startFresh, Store.create]
  · intro s h hexp
    simp only [startGame, h]
    rw [if_neg (by simp [hexp])]
  · intro s h hexp
    have hsa : s.status = .active := by
      by_contra hc
      rw [GameSessionEntity.is_expired, if_pos hc] at hexp
      exact Bool.false_ne_true hexp
    refine ⟨?_, ?_, ?_, rfl, rfl, ?_⟩
    · simp only [startGame, h]
      rw [if_pos (by simp [hexp])]
    · rw [GameSessionEntity.expire_session, if_pos hsa]
    · have hmem : s ∈ store.sessions := List.mem_of_find?_eq_some h
      have hid : s.expire_session.id = s.id := by
        rw [GameSessionEntity.expire_session, if_pos hsa]
      refine List.mem_append_left _ ?_
      exact List.mem_map.mpr ⟨s, hmem, by rw [hid, if_pos rfl]⟩
    · simp [startFresh, Store.create]

/-- Witness for C3 at concrete stores: empty store, store with a live
active session, and store with a lapsed active session. -/
theorem startGame_spec_witness :
    startGame defaultSettings ⟨[], 1⟩ 5 100 =
      (.ok (startFresh ⟨[], 1⟩ 5 100).1, (startFresh ⟨[], 1⟩ 5 100).2) ∧
    startGame defaultSettings ⟨[cexSession], 2⟩ 1 500 =
      (.error .conflictError, (⟨[cexSession], 2⟩ : Store)) ∧
    startGame defaultSettings ⟨[cexSession], 2⟩ 1 1800000001 =
      (.ok (startFresh (Store.update ⟨[cexSession], 2⟩ cexSession.expire_session) 1 1800000001).1,
       (startFresh (Store.update ⟨[cexSession], 2⟩ cexSession.expire_session) 1 1800000001).2) := by
  refine ⟨?_, ?_, ?_⟩
  · exact ((startGame_spec defaultSettings ⟨[], 1⟩ 5 100).1 (by decide)).1
  · exact (startGame_spec defaultSettings ⟨[cexSession], 2⟩ 1 500).2.1 cexSession
      (by decide) (by decide)
  · exact ((startGame_spec defaultSettings ⟨[cexSession], 2⟩ 1 1800000001).2.2 cexSession
      (by decide) (by decide)).1

section AssocLemmas

variable {α β : Type} [DecidableEq α]

lemma assocLookup_set_self (l : List (α × β)) (k : α) (v : β) :
    assocLookup (assocSet l k v) k = some v := by
  induction l with
  | nil => simp [assocSet, assocLookup]
  | cons p rest ih =>
    obtain ⟨k', v'⟩ := p
    by_cases h : k' = k
    · subst h
      simp [assocSet, assocLookup]
    · simp [assocSet, assocLookup, h, ih]

lemma assocSet_of_lookup_none {l : List (α × β)} {k : α}
    (h : assocLookup l k = none) (v : β) : assocSet l k v = l ++ [(k, v)] := by
  induction l with
  | nil => simp [assocSet]
  | cons p rest ih =>
    obtain ⟨k', v'⟩ := p
    by_cases hk : k' = k
    · rw [assocLookup, if_pos hk] at h
      exact absurd h (by simp)
    · rw [assocLookup, if_neg hk] at h
      simp [assocSet, hk, ih h]

lemma assocLookup_append_of_none {l₁ : List (α × β)} {k : α}
    (h : assocLookup l₁ k = none) (l₂ : List (α × β)) :
    assocLookup (l₁ ++ l₂) k = assocLookup l₂ k := by
  induction l₁ with
  | nil => simp
  | cons p rest ih =>
    obtain ⟨k', v'⟩ := p
    by_cases hk : k' = k
    · rw [assocLookup, if_pos hk] at h
      exact absurd h (by simp)
    · rw [assocLookup, if_neg hk] at h
      simp only [List.cons_append, assocLookup, if_neg hk]
      exact ih h

lemma assocDel_append_singleton_of_none {l : List (α × β)} {k : α}
    (h : assocLookup l k = none) (v : β) : assocDel (l ++ [(k, v)]) k = l := by
  induction l with
  | nil => simp [assocDel]
  | cons p rest ih =>
    obtain ⟨k', v'⟩ := p
    by_cases hk : k' = k
    · rw [assocLookup, if_pos hk] at h
      exact absurd h (by simp)
    · rw [assocLookup, if_neg hk] at h
      simp only [List.cons_append, assocDel, if_neg hk]
      exact congrArg _ (ih h)

lemma assocSet_set (l : List (α × β)) (k : α) (v w : β) :
    assocSet (assocSet l k v) k w = assocSet l k w := by
  induction l with
  | nil => simp [assocSet]
  | cons p rest ih =>
    obtain ⟨k', v'⟩ := p
    by_cases hk : k' = k
    · subst hk
      simp [assocSet]
    · simp [assocSet, hk, ih]

lemma assocSet_lookup_self {l : List (α × β)} {k : α} {v : β}
    (h : assocLookup l k = some v) : assocSet l k v = l := by
  induction l with
  | nil => simp [assocLookup] at h
  | cons p rest ih =>
    obtain ⟨k', v'⟩ := p
    by_cases hk : k' = k
    · rw [assocLookup, if_pos hk] at h
      obtain rfl : v' = v := by simpa using h
      simp [assocSet, hk]
    · rw [assocLookup, if_neg hk] at h
      simp [assocSet, hk, ih h]

lemma erase_append_singleton {g : List α} {c : α} (h : c ∉ g) :
    (g ++ [c]).erase c = g := by
  induction g with
  | nil => simp
  | cons a gs ih =>
    have h1 : ¬ (c = a ∨ c ∈ gs) := by simpa using h
    push_neg at h1
    have hne : a ≠ c := fun he => h1.1 he.symm
    simp [List.erase_cons, hne, ih h1.2]

end AssocLemmas

/-- C7.  Registering a fresh connection under a topic and then
unregistering it restores the registry exactly, provided the connection was
not already tracked and no registered topic group is empty (which `connect`
and `disconnect` maintain: groups are created non-empty and deleted when
emptied). -/
theorem register_unregister_roundtrip (m : WSManager) (c : Conn) (t : String)
    (uid : Option ℤ)
    (hInfo : assocLookup m.connection_info c = none)
    (hGroups : ∀ t' g, assocLookup m.connections t' = some g → c ∉ g ∧ g ≠ []) :
    (m.connect c t uid).disconnect c = m := by
  have hsetinfo : assocSet m.connection_info c ⟨t, uid, none⟩ =
      m.connection_info ++ [(c, ⟨t, uid, none⟩)] := assocSet_of_lookup_none hInfo _
  have hlinfo : assocLookup (m.connection_info ++ [(c, (⟨t, uid, none⟩ : ConnInfo))]) c =
      some ⟨t, uid, none⟩ := by
    rw [assocLookup_append_of_none hInfo]
    simp [assocLookup]
  cases hconn : assocLookup m.connections t with
  | none =>
    have hc : m.connect c t uid =
        ⟨m.connections ++ [(t, [c])], m.connection_info ++ [(c, ⟨t, uid, none⟩)]⟩ := by
      simp [WSManager.connect, hconn, hsetinfo, assocSet_of_lookup_none hconn]
    rw [hc]
    simp [WSManager.disconnect, hlinfo, assocLookup_append_of_none hconn, assocLookup,
          List.erase_cons, assocDel_append_singleton_of_none hconn,
          assocDel_append_singleton_of_none hInfo]
  | some g =>
    obtain ⟨hcg, hgne⟩ := hGroups t g hconn
    have hc : m.connect c t uid =
        ⟨assocSet m.connections t (g ++ [c]),
         m.connection_info ++ [(c, ⟨t, uid, none⟩)]⟩ := by
      simp [WSManager.connect, hconn, hsetinfo, hcg]
    rw [hc]
    simp [WSManager.disconnect, hlinfo, assocLookup_set_self, erase_append_singleton hcg,
          hgne, List.isEmpty_iff, assocSet_set, assocSet_lookup_self hconn,
          assocDel_append_singleton_of_none hInfo]

/-- Witness for C7: from the empty registry, after `register(c,
"leaderboard", 7)` then `unregister(c)` the count for "leaderboard" is 0
and the topic key itself is absent. -/
theorem register_unregister_roundtrip_witness :
    (WSManager.empty.connect 0 "leaderboard" (some 7)).disconnect 0 = WSManager.empty ∧
    ((WSManager.empty.connect 0 "leaderboard" (some 7)).disconnect 0).count "leaderboard" = 0 ∧
    assocLookup ((WSManager.empty.connect 0 "leaderboard" (some 7)).disconnect 0).connections
      "leaderboard" = none := by
  have h := register_unregister_roundtrip WSManager.empty 0 "leaderboard" (some 7) rfl
    (fun t' g hg => by simp [WSManager.empty, assocLookup] at hg)
  exact ⟨h, by rw [h]; rfl, by rw [h]; rfl⟩

lemma runDeliver_eq (sendOk : Conn → Bool) (l : List Conn) :
    WSManager.runDeliver sendOk l = (l.filter sendOk, l.filter (fun c => ! sendOk c)) := by
  induction l with
  | nil => rfl
  | cons c cs ih =>
    rw [WSManager.runDeliver, ih]
    cases h : sendOk c <;> simp [List.filter, h]

/-- C6.  Broadcasting to a topic operates on the snapshot of its
connections: every connection whose send succeeds receives the message
regardless of other connections' failures, and after the delivery pass
exactly the failed connections are unregistered; in particular with one
failing and one healthy connection the healthy one is delivered to and the
topic's live count drops by exactly one. -/
theorem broadcast_isolation_spec (m : WSManager) (t : String) (sendOk : Conn → Bool) :
    (assocLookup m.connections t = none →
      m.send_to_connection_type t sendOk = ([], m)) ∧
    (∀ group, assocLookup m.connections t = some group →
      m.send_to_connection_type t sendOk =
        (group.filter sendOk,
         (group.filter (fun c => ! sendOk c)).foldl WSManager.disconnect m)) ∧
    (∀ c₁ c₂ u, assocLookup m.connections t = some [c₁, c₂] →
      sendOk c₁ = false → sendOk c₂ = true →
      assocLookup m.connection_info c₁ = some u → u.type = t →
      c₂ ∈ (m.send_to_connection_type t sendOk).1 ∧
      (m.send_to_connection_type t sendOk).2.count t = m.count t - 1) := by
  have hmain : ∀ group, assocLookup m.connections t = some group →
      m.send_to_connection_type t sendOk =
        (group.filter sendOk,
         (group.filter (fun c => ! sendOk c)).foldl WSManager.disconnect m) := by
    intro g hg
    simp [WSManager.send_to_connection_type, hg, runDeliver_eq]
  refine ⟨?_, hmain, ?_⟩
  · intro h
    simp [WSManager.send_to_connection_type, h]
  · intro c₁ c₂ u hg hfail hok hinfo htype
    have hsend := hmain [c₁, c₂] hg
    have hfilter : [c₁, c₂].filter sendOk = [c₂] := by
      simp [List.filter, hfail, hok]
    have hfailf : [c₁, c₂].filter (fun c => ! sendOk c) = [c₁] := by
      simp [List.filter, hfail, hok]
    rw [hsend, hfilter, hfailf]
    refine ⟨by simp, ?_⟩
    show (WSManager.disconnect m c₁).count t = m.count t - 1
    have hdis : WSManager.disconnect m c₁ =
        ⟨assocSet m.connections t [c₂], assocDel m.connection_info c₁⟩ := by
      simp [WSManager.disconnect, hinfo, htype, hg, List.erase_cons]
    rw [hdis]
    simp [WSManager.count, assocLookup_set_self, hg]

/-- Witness for C6: in a two-connection topic where connection 1 fails and
connection 2 succeeds, 2 is delivered to and the count drops by one. -/
theorem broadcast_isolation_spec_witness :
    2 ∈ (demoManager.send_to_connection_type "leaderboard" demoSendOk).1 ∧
    (demoManager.send_to_connection_type "leaderboard" demoSendOk).2.count "leaderboard" =
      demoManager.count "leaderboard" - 1 :=
  (broadcast_isolation_spec demoManager "leaderboard" demoSendOk).2.2 1 2
    ⟨"leaderboard", none, none⟩ rfl rfl rfl rfl rfl

lemma rankFrom_length (k : ℕ) (l : List LBRow) : (rankFrom k l).length = l.length := by
  induction l generalizing k with
  | nil => rfl
  | cons r rs ih => simp [rankFrom, ih]

lemma rankFrom_get_rank (l : List LBRow) : ∀ (k i : ℕ) (h : i < (rankFrom k l).length),
    ((rankFrom k l).get ⟨i, h⟩).rank = k + i + 1 := by
  induction l with
  | nil =>
    intro k i h
    simp [rankFrom] at h
  | cons r rs ih =>
    intro k i h
    cases i with
    | zero => rfl
    | succ j =>
      have h' : j < (rankFrom (k + 1) rs).length := by
        simpa [rankFrom] using h
      have hj := ih (k + 1) j h'
      have hg : ((rankFrom k (r :: rs)).get ⟨j + 1, h⟩).rank =
          ((rankFrom (k + 1) rs).get ⟨j, h'⟩).rank := rfl
      rw [hg, hj]
      omega

lemma rankFrom_mem {e : LBEntry} : ∀ {k : ℕ} {l : List LBRow}, e ∈ rankFrom k l →
    ∃ r ∈ l, e.user_id = r.user_id ∧ e.username = r.username ∧
      e.avg_deviation_ms = pyRound2 r.avg_deviation ∧
      e.best_deviation_ms = r.best_deviation ∧ e.total_games = r.total_games := by
  intro k l
  induction l generalizing k with
  | nil =>
    intro h
    simp [rankFrom] at h
  | cons r rs ih =>
    intro h
    rw [rankFrom] at h
    rcases List.mem_cons.mp h with he | he
    · exact ⟨r, List.mem_cons_self r rs,
        by rw [he], by rw [he], by rw [he], by rw [he], by rw [he]⟩
    · obtain ⟨r', hr', hf⟩ := ih he
      exact ⟨r', List.mem_cons_of_mem r hr', hf⟩

lemma rankFrom_pairwise : ∀ {l : List LBRow}, List.Pairwise lbRowLe l → ∀ (k : ℕ),
    List.Pairwise (fun a b : LBEntry => a.avg_deviation_ms ≤ b.avg_deviation_ms)
      (rankFrom k l) := by
  intro l
  induction l with
  | nil => intro _ k; exact List.Pairwise.nil
  | cons r rs ih =>
    intro h k
    rcases List.pairwise_cons.mp h with ⟨hr, hrs⟩
    rw [rankFrom]
    refine List.Pairwise.cons ?_ (ih hrs (k + 1))
    intro e he
    obtain ⟨r', hr', hf⟩ := rankFrom_mem he
    show pyRound2 r.avg_deviation ≤ e.avg_deviation_ms
    rw [hf.2.2.1]
    exact pyRound2_mono (hr r' hr')

/-- C5.  `get_leaderboard(limit)` returns at most `limit` entries, ordered
ascending by `avg_deviation_ms`, with rank `i + 1` at position `i`; every
entry carries some user's mean, minimum and count over that user's
completed sessions with non-null deviation; and on two users with average
deviations 50 and 500 the first user comes out at rank 1. -/
theorem get_leaderboard_spec (users : List UserRec) (sessions : List GameSessionEntity)
    (limit : ℕ) :
    (get_leaderboard users sessions limit).length ≤ limit ∧
    List.Pairwise (fun a b : LBEntry => a.avg_deviation_ms ≤ b.avg_deviation_ms)
      (get_leaderboard users sessions limit) ∧
    (∀ (i : ℕ) (h : i < (get_leaderboard users sessions limit).length),
      ((get_leaderboard users sessions limit).get ⟨i, h⟩).rank = i + 1) ∧
    (∀ e ∈ get_leaderboard users sessions limit, ∃ u ∈ users,
      completedDeviations sessions u.id ≠ [] ∧
      e.user_id = u.id ∧ e.username = u.username ∧
      e.avg_deviation_ms = pyRound2 ((completedDeviations sessions u.id).sum /
        ((completedDeviations sessions u.id).length : ℚ)) ∧
      e.best_deviation_ms = minDev (completedDeviations sessions u.id) ∧
      e.total_games = (completedDeviations sessions u.id).length) ∧
    (get_leaderboard demoUsers demoSessions 10).map (fun e => (e.user_id, e.rank)) =
      [(1, 1), (2, 2)] := by
  refine ⟨?_, ?_, ?_, ?_, ?_⟩
  · rw [get_leaderboard, rankFrom_length, List.length_take]
    exact min_le_left _ _
  · have hsorted : List.Pairwise lbRowLe
        (sortRows (users.filterMap (userRow sessions))) :=
      List.sorted_insertionSort lbRowLe _
    have htake : List.Pairwise lbRowLe
        ((sortRows (users.filterMap (userRow sessions))).take limit) :=
      List.Pairwise.sublist (List.take_sublist _ _) hsorted
    exact rankFrom_pairwise htake 0
  · intro i h
    have := rankFrom_get_rank ((sortRows (users.filterMap (userRow sessions))).take limit)
      0 i h
    simpa using this
  · intro e he
    rw [get_leaderboard] at he
    obtain ⟨r, hrt, hf⟩ := rankFrom_mem he
    have hrs : r ∈ sortRows (users.filterMap (userRow sessions)) :=
      List.take_subset _ _ hrt
    have hrows : r ∈ users.filterMap (userRow sessions) :=
      (List.perm_insertionSort lbRowLe _).mem_iff.mp hrs
    obtain ⟨u, hu, hur⟩ := List.mem_filterMap.mp hrows
    by_cases hdev : (completedDeviations sessions u.id).isEmpty
    · rw [userRow] at hur
      simp only [hdev, if_pos] at hur
      exact absurd hur (by simp)
    · rw [userRow] at hur
      simp only [hdev, Bool.false_eq_true, if_neg] at hur
      obtain rfl : (⟨u.id, u.username,
          (((completedDeviations sessions u.id).sum : ℚ) /
            ((completedDeviations sessions u.id).length : ℚ)),
          minDev (completedDeviations sessions u.id),
          (completedDeviations sessions u.id).length⟩ : LBRow) = r := by
        simpa using hur
      refine ⟨u, hu, ?_, hf.1, hf.2.1, ?_, hf.2.2.2.1, hf.2.2.2.2⟩
      · intro hnil
        rw [hnil] at hdev
        exact hdev rfl
      · rw [hf.2.2.1]
  · norm_num [get_leaderboard, demoUsers, demoSessions, demoCompleted, userRow,
      completedDeviations, minDev, sortRows, List.insertionSort, List.orderedInsert,
      lbRowLe, rankFrom, List.filterMap]

/-- Witness for C5: on the two-user leaderboard the entry at position 0 is
user 1 with rank 1. -/
theorem get_leaderboard_spec_witness :
    ((get_leaderboard demoUsers demoSessions 10).get? 0).map (fun e => e.rank) = some 1 ∧
    (get_leaderboard demoUsers demoSessions 10).map (fun e => (e.user_id, e.rank)) =
      [(1, 1), (2, 2)] := by
  have h := get_leaderboard_spec demoUsers demoSessions 10
  have hmap := h.2.2.2.2
  have hlen : (get_leaderboard demoUsers demoSessions 10).length = 2 := by
    have := congrArg List.length hmap
    simpa using this
  have h0 : 0 < (get_leaderboard demoUsers demoSessions 10).length := by
    rw [hlen]
    norm_num
  have hrank := h.2.2.1 0 h0
  rw [List.get?_eq_get h0]
  exact ⟨by simpa using hrank, hmap⟩

/-- C9.  The `connection_established` frame that `send_connection_status`
sends is `str(welcome_message).replace("'", '"')`, not a JSON dump.  For a
leaderboard whose usernames are quote-free the frame happens to be valid
JSON, but for a username containing a single-quote character (here the
surname O-quote-Brien, whose Python repr is double-quote delimited so that
the replace leaves a stray quote inside the string) the frame is not valid
JSON, contradicting the spec's requirement that all push-channel wire
messages are JSON text frames. -/
theorem connection_status_frame_json :
    jsonValidChars (connectionStatusFrame [plainEntry] 1 "2026-01-01T00:00:00Z") = true ∧
    jsonValidChars (connectionStatusFrame [quotedEntry] 1 "2026-01-01T00:00:00Z") = false := by
  constructor
  · set_option maxRecDepth 10000 in decide
  · set_option maxRecDepth 10000 in decide

end TimeItRight
